import Mathlib

/-!
Shallow embedding of the flousaza market bot, from src/BotBourse.py and
src/scrapper.py.  Session dates are modeled as natural numbers; prices and
volumes as exact rationals.  Python float arithmetic is modeled by exact
rational arithmetic; the IEEE special values produced by pandas (inf from
x/0 with x positive, NaN from 0/0 and from incomplete rolling windows) are
modeled explicitly through Option, following the branch behavior of the
source line by line.  The locale text normalization clean_number is
abstracted: numeric columns appear as the rationals it produces.
-/

/-- One row of the historical_quotes table of bourse_casa.db (created in
get_latest_session_date, BotBourse.py lines 35-42): an instrument id, a
session date, and the numeric fields read by the analysis, with the
UNIQUE(instrument_id, Date) key modeled through the insert operations. -/
structure QuoteRow where
  instrumentId : Nat
  date : Nat
  close : ℚ
  volume : ℚ
deriving DecidableEq, Repr

/-- One row of a fetched dataframe, before it is tagged with an instrument
id (the frames produced by process_instrument_update). -/
structure DataRow where
  date : Nat
  close : ℚ
  volume : ℚ
deriving DecidableEq, Repr

/-- One row of the instruments table (BotBourse.py lines 74-79). -/
structure Instrument where
  id : Nat
  symbol : String
deriving DecidableEq, Repr

/-- The durable state read by the analysis: the instruments table plus the
historical_quotes table, each in rowid (insertion) order. -/
structure Db where
  instruments : List Instrument
  quotes : List QuoteRow
deriving DecidableEq, Repr

/-- Liquidity threshold MIN_VOLUME_MAD (BotBourse.py line 16). -/
def MIN_VOLUME_MAD : ℚ := 10000

/-- Blacklisted tickers (BotBourse.py line 152). -/
def BLACKLIST : List String := ["TMA", "TQM", "UMR", "VCN", "WAA", "ZDJ"]

/-- Bootstrap lookback in days used when the store is empty
(BotBourse.py line 188). -/
def BOOTSTRAP_DAYS : Nat := 30

/-- SELECT MAX(Date) FROM historical_quotes (BotBourse.py lines 43-46), at
the level of chronological dates; NULL on an empty table becomes none.
The correspondence between this chronological maximum and the textual
maximum SQLite takes over the stored ISO date strings is proved separately
(see latest_session_date_text below and the C10 theorem). -/
def get_latest_session_date (quotes : List QuoteRow) : Option Nat :=
  quotes.foldl (fun acc r =>
    match acc with
    | none => some r.date
    | some d => some (max d r.date)) none

/-- JOIN of historical_quotes h with instruments i ON h.instrument_id = i.id,
enumerated in quote rowid order (the scan order SQLite uses for the
queries of BotBourse.py, which carry no ORDER BY on the join itself). -/
def joinedRows (db : Db) : List (Instrument × QuoteRow) :=
  db.quotes.flatMap (fun h =>
    (db.instruments.filter (fun i => i.id == h.instrumentId)).map (fun i => (i, h)))

/-- Rows of historical_quotes belonging to one symbol, through the join. -/
def symbolRows (db : Db) (sym : String) : List QuoteRow :=
  ((joinedRows db).filter (fun p => p.1.symbol == sym)).map (fun p => p.2)

/-- Insertion into a list kept sorted by ascending date (stable: a new row
goes after existing rows with the same date). -/
def insertByDate (r : QuoteRow) : List QuoteRow → List QuoteRow
  | [] => [r]
  | q :: t => if q.date ≤ r.date then q :: insertByDate r t else r :: q :: t

/-- Insertion sort by ascending date, modeling ORDER BY h.Date ASC. -/
def sortByDate : List QuoteRow → List QuoteRow
  | [] => []
  | r :: t => insertByDate r (sortByDate t)

/-- get_history (BotBourse.py lines 230-254): the SELECT with
ORDER BY h.Date ASC LIMIT ?, so the LIMIT keeps the first rows of the
ascending ordering.  The clean_number application to the close and volume
text is absorbed into the rational fields. -/
def get_history (db : Db) (symbol : String) (limit : Nat) : List QuoteRow :=
  (sortByDate (symbolRows db symbol)).take limit

/-- INSERT OR REPLACE INTO historical_quotes under the
UNIQUE(instrument_id, Date) key: any row with the same key is deleted and
the incoming row is appended with a fresh rowid. -/
def insertOrReplace (store : List QuoteRow) (r : QuoteRow) : List QuoteRow :=
  (store.filter (fun q => !(q.instrumentId == r.instrumentId && q.date == r.date))) ++ [r]

/-- save_history (BotBourse.py lines 103-142): one INSERT OR REPLACE per
dataframe row, counting every executed statement as inserted.  The dropped
Symbol column and the dynamic column handling are not modeled; the store
of this embedding has the fixed columns the analysis reads. -/
def save_history (store : List QuoteRow) (instrument_id : Nat)
    (df : List DataRow) : Nat × List QuoteRow :=
  if df = [] then (0, store)
  else df.foldl (fun acc row =>
    (acc.1 + 1, insertOrReplace acc.2 ⟨instrument_id, row.date, row.close, row.volume⟩))
    (0, store)

/-- Single-row insert of seed_history (scrapper.py lines 201-207):
INSERT ... ON CONFLICT (symbol, date) DO NOTHING on the market_data table,
keyed here by instrument id like the sqlite store. -/
def seedInsert (store : List QuoteRow) (r : QuoteRow) : List QuoteRow :=
  if store.any (fun q => q.instrumentId == r.instrumentId && q.date == r.date) then store
  else store ++ [r]

/-- Positive part used for the gain column: delta.where(delta gt 0, 0). -/
def gainPart (q : ℚ) : ℚ := if 0 < q then q else 0

/-- Magnitude of the negative part: (-delta.where(delta lt 0, 0)). -/
def lossPart (q : ℚ) : ℚ := if q < 0 then -q else 0

/-- Day-over-day differences produced by df.diff(), without the leading
NaN entry (handled by gainsSeries and lossSeries below). -/
def deltas (xs : List ℚ) : List ℚ := List.zipWith (fun a b => b - a) xs xs.tail

/-- Last n elements of a list (the rolling window ending at the last row). -/
def lastN (n : Nat) (xs : List ℚ) : List ℚ := xs.drop (xs.length - n)

/-- Gain column of the RSI computation.  The leading NaN of diff() fails
the comparison delta gt 0 and is replaced by 0 by Series.where, hence the
0 head on a nonempty series. -/
def gainsSeries (xs : List ℚ) : List ℚ :=
  match xs with
  | [] => []
  | _ :: _ => 0 :: (deltas xs).map gainPart

/-- Loss column of the RSI computation, as positive magnitudes, with the
same treatment of the leading NaN. -/
def lossSeries (xs : List ℚ) : List ℚ :=
  match xs with
  | [] => []
  | _ :: _ => 0 :: (deltas xs).map lossPart

/-- Last value of Series.rolling(window=w).mean(): NaN (none) while fewer
than w observations exist, else the mean of the last w entries. -/
def rollingMeanLast (w : Nat) (xs : List ℚ) : Option ℚ :=
  if xs.length < w then none else some ((lastN w xs).sum / (w : ℚ))

/-- Last RSI(14) value (BotBourse.py lines 263-267).  With avgLoss = 0 and
avgGain positive, pandas divides by zero to +inf and 100 - 100/(1+inf)
is exactly 100; with both averages zero the 0/0 gives NaN, modeled none. -/
def rsiLast (xs : List ℚ) : Option ℚ :=
  match rollingMeanLast 14 (gainsSeries xs), rollingMeanLast 14 (lossSeries xs) with
  | some g, some l =>
    if l = 0 then (if g = 0 then none else some 100)
    else some (100 - 100 / (1 + g / l))
  | _, _ => none

/-- calculate_indicators (BotBourse.py lines 258-273): none for a series
shorter than 20 rows (the source returns the triple None, None, None),
else the last RSI(14), SMA(20) and SMA(50), each inner value absent
exactly when pandas would hold NaN there. -/
def calculate_indicators (xs : List ℚ) : Option (Option ℚ × Option ℚ × Option ℚ) :=
  if xs.length < 20 then none
  else some (rsiLast xs, rollingMeanLast 20 xs, rollingMeanLast 50 xs)

/-- The three signal labels of the strategy branch. -/
inductive SignalKind
  | rebond
  | tendance
  | vente
deriving DecidableEq, Repr

/-- Python truthiness of a float: NaN is truthy, 0.0 is falsy. -/
def floatTruthy : Option ℚ → Bool
  | none => true
  | some q => q != 0

/-- Comparison a gt b under IEEE semantics: false when either side is NaN. -/
def optGt : Option ℚ → Option ℚ → Bool
  | some a, some b => decide (b < a)
  | _, _ => false

/-- Comparison rsi lt c, false on NaN. -/
def rsiBelow (rsi : Option ℚ) (c : ℚ) : Bool :=
  match rsi with
  | some r => decide (r < c)
  | none => false

/-- Comparison rsi gt c, false on NaN. -/
def rsiAbove (rsi : Option ℚ) (c : ℚ) : Bool :=
  match rsi with
  | some r => decide (c < r)
  | none => false

/-- Comparison a / b lt c, false when either operand is NaN.  It is only
reached with b nonzero, behind the truthiness guard of the source. -/
def ratioBelow : Option ℚ → Option ℚ → ℚ → Bool
  | some a, some b, c => decide (a / b < c)
  | _, _, _ => false

/-- One line of the opportunity report, reified as a record: the source
formats exactly these values into an f-string (BotBourse.py lines 339-344). -/
structure Entry where
  symbol : String
  signal : SignalKind
  close : ℚ
  volume : ℚ
  target : ℚ
  volSpike : Bool
deriving DecidableEq, Repr

/-- Strategy branch (BotBourse.py lines 320-337): a first-match if / elif
chain over the indicator conditions, yielding at most one signal with its
target price.  The float constants 1.05, 1.10, 0.95 and 1.02 are modeled
by the exact decimals; no comparison of the development sits within float
rounding distance of a boundary. -/
def signalFor (close : ℚ) (rsi sma20 sma50 : Option ℚ) : Option (SignalKind × ℚ) :=
  if rsiBelow rsi 35 then some (SignalKind.rebond, close * 1.05)
  else if floatTruthy sma20 && floatTruthy sma50 && optGt sma20 sma50
      && ratioBelow sma20 sma50 1.02 then some (SignalKind.tendance, close * 1.10)
  else if rsiAbove rsi 70 then some (SignalKind.vente, close * 0.95)
  else none

/-- Rows of the latest session, as (symbol, close, volume) triples: the
query of BotBourse.py lines 287-294 over the join, in scan order. -/
def todaysData (db : Db) (sd : Nat) : List (String × ℚ × ℚ) :=
  ((joinedRows db).filter (fun p => p.2.date == sd)).map
    (fun p => (p.1.symbol, p.2.close, p.2.volume))

/-- Body of the per-instrument loop of analyze_opportunities (BotBourse.py
lines 306-344): the same-day volume gate, the 20-row history gate, the
indicator computation, the 5-session volume spike flag and the strategy
branch, yielding an entry when a signal fires. -/
def analyzeRow (db : Db) (t : String × ℚ × ℚ) : Option Entry :=
  if t.2.2 < MIN_VOLUME_MAD then none
  else
    let df := get_history db t.1 60
    if df.length < 20 then none
    else
      match calculate_indicators (df.map (fun r => r.close)) with
      | none => none
      | some (rsi, sma20, sma50) =>
        let avgVol := rollingMeanLast 5 (df.map (fun r => r.volume))
        let volSpike := (match avgVol with
          | some a => decide (a * 1.5 < t.2.2)
          | none => false) && decide ((50000 : ℚ) < t.2.2)
        match signalFor t.2.1 rsi sma20 sma50 with
        | none => none
        | some kt => some ⟨t.1, kt.1, t.2.1, t.2.2, kt.2, volSpike⟩

/-- analyze_opportunities (BotBourse.py lines 276-346): empty when the
store holds no session, else the surviving entries of the latest session
rows, in store row order. -/
def analyze_opportunities (db : Db) : List Entry :=
  match get_latest_session_date db.quotes with
  | none => []
  | some sd => (todaysData db sd).filterMap (analyzeRow db)

/-- Fetch window start (BotBourse.py lines 180-188): day after the latest
stored date, or today minus the bootstrap lookback on an empty store. -/
def computeStart (store : List QuoteRow) (today : Nat) : Nat :=
  match get_latest_session_date store with
  | some d => d + 1
  | none => today - BOOTSTRAP_DAYS

/-- process_instrument_update (BotBourse.py lines 146-173): none for a
blacklisted symbol or an empty fetch, else the instrument id with the
fetched frame.  Dates arrive already normalized here (the ISO text
normalization is treated at text level further below); the Symbol column
inserted at line 168 is dropped again by save_history and not modeled. -/
def process_instrument_update (fetch : String → Nat → Nat → List DataRow)
    (inst : Instrument) (s e : Nat) : Option (Nat × List DataRow) :=
  if inst.symbol ∈ BLACKLIST then none
  else
    let df := fetch inst.symbol s e
    if df = [] then none else some (inst.id, df)

/-- One completed fetch task folded into the running total and store
(BotBourse.py lines 212-219). -/
def syncStep (fetch : String → Nat → Nat → List DataRow) (s e : Nat)
    (acc : Nat × List QuoteRow) (inst : Instrument) : Nat × List QuoteRow :=
  match process_instrument_update fetch inst s e with
  | none => acc
  | some p =>
    let r := save_history acc.2 p.1 p.2
    (acc.1 + r.1, r.2)

/-- update_daily_data (BotBourse.py lines 176-227).  The completion order
of the parallel fetch tasks is abstracted as the instrument list order;
all writes go through the single connection of the source, matching the
sequential fold.  The instruments table refresh of line 178 touches only
the instruments table and is carried by the instruments parameter. -/
def update_daily_data (store : List QuoteRow) (instruments : List Instrument)
    (fetch : String → Nat → Nat → List DataRow) (today : Nat) :
    Nat × List QuoteRow :=
  let s := computeStart store today
  if today < s then (0, store)
  else instruments.foldl (syncStep fetch s today) (0, store)

/-- A calendar date as the pandas Timestamp components that
process_instrument_update formats with strftime. -/
structure CalDate where
  year : Nat
  month : Nat
  day : Nat
deriving DecidableEq, Repr

/-- Component ranges of any date a pandas Timestamp can hold (its years
stay within 1677-2262, far inside these bounds). -/
def CalDate.Valid (d : CalDate) : Prop :=
  d.year < 10000 ∧ 1 ≤ d.month ∧ d.month ≤ 12 ∧ 1 ≤ d.day ∧ d.day ≤ 31

instance (d : CalDate) : Decidable d.Valid := by
  unfold CalDate.Valid; infer_instance

/-- Chronological order on calendar dates. -/
def dateLT (a b : CalDate) : Prop :=
  a.year < b.year ∨ (a.year = b.year ∧
    (a.month < b.month ∨ (a.month = b.month ∧ a.day < b.day)))

instance (a b : CalDate) : Decidable (dateLT a b) := by
  unfold dateLT; infer_instance

/-- Zero-padded fixed-width decimal digits of n, most significant first. -/
def padDigits : Nat → Nat → List Char
  | 0, _ => []
  | w + 1, n => Nat.digitChar (n / 10 ^ w) :: padDigits w (n % 10 ^ w)

/-- Date text produced by pd.to_datetime(...).dt.strftime with the format
string of BotBourse.py line 167: four year digits, a hyphen, two month
digits, a hyphen, two day digits. -/
def isoChars (d : CalDate) : List Char :=
  padDigits 4 d.year ++ '-' :: (padDigits 2 d.month ++ '-' :: padDigits 2 d.day)

/-- Byte-wise text comparison of the SQLite BINARY collation, restricted
to the ASCII texts at hand: strict lexicographic order on char lists. -/
def lexLT : List Char → List Char → Bool
  | [], [] => false
  | [], _ :: _ => true
  | _ :: _, [] => false
  | a :: as, b :: bs => if a < b then true else if b < a then false else lexLT as bs

/-- SELECT MAX(Date) at text level: the aggregate MAX of SQLite over the
TEXT column, NULL (none) on an empty table. -/
def latest_session_date_text (dateTexts : List (List Char)) : Option (List Char) :=
  dateTexts.foldl (fun acc s =>
    match acc with
    | none => some s
    | some t => some (if lexLT t s then s else t)) none

/-- The chronologically latest of a list of calendar dates. -/
def chronoMax (ds : List CalDate) : Option CalDate :=
  ds.foldl (fun acc d =>
    match acc with
    | none => some d
    | some c => some (if dateLT c d then d else c)) none

/-! ### Ordering lemmas for the get_history query -/

lemma mem_insertByDate {x r : QuoteRow} {l : List QuoteRow} :
    x ∈ insertByDate r l ↔ x = r ∨ x ∈ l := by
  induction l with
  | nil => simp [insertByDate]
  | cons q t ih =>
    simp only [insertByDate]
    split
    · simp only [List.mem_cons, ih]
      tauto
    · simp only [List.mem_cons]

lemma length_insertByDate (r : QuoteRow) (l : List QuoteRow) :
    (insertByDate r l).length = l.length + 1 := by
  induction l with
  | nil => rfl
  | cons q t ih =>
    by_cases h : q.date ≤ r.date <;> simp [insertByDate, h, ih]

lemma sorted_insertByDate {r : QuoteRow} {l : List QuoteRow}
    (hl : l.Sorted (fun a b => a.date ≤ b.date)) :
    (insertByDate r l).Sorted (fun a b => a.date ≤ b.date) := by
  induction l with
  | nil => simp [insertByDate]
  | cons q t ih =>
    rw [List.sorted_cons] at hl
    by_cases h : q.date ≤ r.date
    · rw [insertByDate, if_pos h, List.sorted_cons]
      refine ⟨?_, ih hl.2⟩
      intro b hb
      rcases mem_insertByDate.1 hb with rfl | hb
      · exact h
      · exact hl.1 b hb
    · rw [insertByDate, if_neg h, List.sorted_cons]
      refine ⟨?_, List.sorted_cons.mpr hl⟩
      intro b hb
      rcases List.mem_cons.mp hb with rfl | hb
      · omega
      · exact le_trans (by omega) (hl.1 b hb)

lemma mem_sortByDate {x : QuoteRow} {l : List QuoteRow} :
    x ∈ sortByDate l ↔ x ∈ l := by
  induction l with
  | nil => simp [sortByDate]
  | cons q t ih => simp [sortByDate, mem_insertByDate, ih]

lemma length_sortByDate (l : List QuoteRow) :
    (sortByDate l).length = l.length := by
  induction l with
  | nil => rfl
  | cons q t ih => simp [sortByDate, length_insertByDate, ih]

lemma sorted_sortByDate (l : List QuoteRow) :
    (sortByDate l).Sorted (fun a b => a.date ≤ b.date) := by
  induction l with
  | nil => simp [sortByDate]
  | cons q t ih => exact sorted_insertByDate ih

/-- C1 (amended): for every symbol and limit, get_history returns an
ascending-date sequence of min(limit, series) rows that is the head of the
chronologically assembled series: every returned row dates no later than
every stored row of the symbol that the limit cut off.  The spec claim
that the most recent rows are kept is refuted separately. -/
theorem get_history_returns_head (db : Db) (sym : String) (limit : Nat) :
    (get_history db sym limit).Sorted (fun a b => a.date ≤ b.date) ∧
    (get_history db sym limit).length = min limit (symbolRows db sym).length ∧
    ∀ r ∈ get_history db sym limit, ∀ q ∈ symbolRows db sym,
      q ∉ get_history db sym limit → r.date ≤ q.date := by
  refine ⟨?_, ?_, ?_⟩
  · exact List.Pairwise.sublist (List.take_sublist _ _) (sorted_sortByDate _)
  · rw [get_history, List.length_take, length_sortByDate]
  · intro r hr q hq hq2
    have hqL : q ∈ sortByDate (symbolRows db sym) := mem_sortByDate.2 hq
    rw [← List.take_append_drop limit (sortByDate (symbolRows db sym))] at hqL
    rcases List.mem_append.1 hqL with hqt | hqd
    · exact absurd hqt hq2
    · have hs := sorted_sortByDate (symbolRows db sym)
      rw [← List.take_append_drop limit (sortByDate (symbolRows db sym))] at hs
      exact (List.pairwise_append.1 hs).2.2 r hr q hqd

/-- Store with a single instrument AAA holding sessions 1, 2, 3. -/
def db1 : Db :=
  ⟨[⟨1, "AAA"⟩],
   [⟨1, 1, 10, 0⟩, ⟨1, 2, 11, 0⟩, ⟨1, 3, 12, 0⟩]⟩

/-- C1 counterexample: with three stored sessions and limit 2, get_history
returns the two earliest dates and drops the chronologically latest stored
session, so the result is the head of the series, not the most recent
limit points the claim demands. -/
theorem get_history_drops_latest_counterexample :
    (get_history db1 "AAA" 2).map (fun r => r.date) = [1, 2] ∧
    (3 ∈ (symbolRows db1 "AAA").map (fun r => r.date)) ∧
    3 ∉ (get_history db1 "AAA" 2).map (fun r => r.date) := by
  refine ⟨by decide, by decide, by decide⟩

/-- Witness for the amended C1 theorem at the concrete store db1. -/
theorem get_history_returns_head_witness :
    (get_history db1 "AAA" 2).Sorted (fun a b => a.date ≤ b.date) ∧
    (get_history db1 "AAA" 2).length = 2 ∧
    (⟨1, 1, 10, 0⟩ : QuoteRow).date ≤ (⟨1, 3, 12, 0⟩ : QuoteRow).date := by
  refine ⟨(get_history_returns_head db1 "AAA" 2).1, ?_, ?_⟩
  · rw [(get_history_returns_head db1 "AAA" 2).2.1]
    decide
  · exact (get_history_returns_head db1 "AAA" 2).2.2
      ⟨1, 1, 10, 0⟩ (by decide) ⟨1, 3, 12, 0⟩ (by decide) (by decide)

/-! ### Key uniqueness of the quote store -/

/-- The UNIQUE(instrument_id, Date) invariant: no two rows share a key. -/
def KeyUnique (store : List QuoteRow) : Prop :=
  store.Pairwise (fun a b => a.instrumentId ≠ b.instrumentId ∨ a.date ≠ b.date)

lemma keyUnique_insertOrReplace (store : List QuoteRow) (r : QuoteRow)
    (h : KeyUnique store) : KeyUnique (insertOrReplace store r) := by
  rw [KeyUnique, insertOrReplace, List.pairwise_append]
  refine ⟨List.Pairwise.sublist (List.filter_sublist _) h, List.pairwise_singleton _ _, ?_⟩
  intro a ha b hb
  rw [List.mem_singleton] at hb
  rw [hb]
  have hf := (List.mem_filter.1 ha).2
  simp only [Bool.not_eq_eq_eq_not, Bool.not_true, Bool.and_eq_false_imp,
    beq_eq_false_iff_ne, ne_eq, beq_iff_eq] at hf
  by_cases hi : a.instrumentId = r.instrumentId
  · exact Or.inr (hf hi)
  · exact Or.inl hi

instance (store : List QuoteRow) : Decidable (KeyUnique store) := by
  unfold KeyUnique
  infer_instance

/-- C2 (amended): a duplicate-key insert is treated as success and the
store keeps at most one row per key, but save_history overwrites: the
incoming row replaces the stored one (INSERT OR REPLACE), while the
seeding path seedInsert of scrapper.py leaves the store unchanged
(ON CONFLICT DO NOTHING). -/
theorem save_history_duplicate_key :
    (∀ (store : List QuoteRow) (iid : Nat) (row : DataRow), KeyUnique store →
      (save_history store iid [row]).1 = 1 ∧
      KeyUnique (save_history store iid [row]).2 ∧
      (⟨iid, row.date, row.close, row.volume⟩ : QuoteRow) ∈ (save_history store iid [row]).2 ∧
      (∀ q ∈ (save_history store iid [row]).2, q.instrumentId = iid → q.date = row.date →
        q = ⟨iid, row.date, row.close, row.volume⟩)) ∧
    (∀ (store : List QuoteRow) (r : QuoteRow),
      (∃ q ∈ store, q.instrumentId = r.instrumentId ∧ q.date = r.date) →
      seedInsert store r = store) := by
  constructor
  · intro store iid row hu
    have hdf : save_history store iid [row]
        = (1, insertOrReplace store ⟨iid, row.date, row.close, row.volume⟩) := by
      rw [save_history, if_neg (by simp)]
      rfl
    rw [hdf]
    refine ⟨rfl, keyUnique_insertOrReplace store _ hu, ?_, ?_⟩
    · rw [insertOrReplace]
      exact List.mem_append_right _ (List.mem_singleton.2 rfl)
    · intro q hq hqi hqd
      rw [insertOrReplace] at hq
      rcases List.mem_append.1 hq with hq | hq
      · have := (List.mem_filter.1 hq).2
        simp only [hqi, hqd, beq_self_eq_true, Bool.and_self, Bool.not_true,
          Bool.false_eq_true] at this
      · exact List.mem_singleton.1 hq
  · intro store r hex
    rw [seedInsert, if_pos]
    rw [List.any_eq_true]
    obtain ⟨q, hq, h1, h2⟩ := hex
    exact ⟨q, hq, by simp [h1, h2]⟩

/-- C2 counterexample: re-inserting key (1, 5) with a different close
replaces the stored row, counted as one inserted row; the originally
stored row is gone, refuting the claimed insert-if-absent no-op. -/
theorem save_history_overwrite_counterexample :
    save_history [⟨1, 5, 10, 7⟩] 1 [⟨5, 20, 7⟩] = (1, [⟨1, 5, 20, 7⟩]) ∧
    (⟨1, 5, 10, 7⟩ : QuoteRow) ∉ (save_history [⟨1, 5, 10, 7⟩] 1 [⟨5, 20, 7⟩]).2 := by
  refine ⟨by decide, by decide⟩

/-- Witness for the amended C2 theorem at a concrete one-row store. -/
theorem save_history_duplicate_key_witness :
    (save_history [⟨1, 5, 10, 7⟩] 1 [⟨5, 20, 7⟩]).1 = 1 ∧
    KeyUnique (save_history [⟨1, 5, 10, 7⟩] 1 [⟨5, 20, 7⟩]).2 ∧
    seedInsert [⟨1, 5, 10, 7⟩] ⟨1, 5, 99, 99⟩ = [⟨1, 5, 10, 7⟩] := by
  refine ⟨(save_history_duplicate_key.1 [⟨1, 5, 10, 7⟩] 1 ⟨5, 20, 7⟩ (by decide)).1,
    (save_history_duplicate_key.1 [⟨1, 5, 10, 7⟩] 1 ⟨5, 20, 7⟩ (by decide)).2.1,
    save_history_duplicate_key.2 [⟨1, 5, 10, 7⟩] ⟨1, 5, 99, 99⟩
      ⟨⟨1, 5, 10, 7⟩, by decide, rfl, rfl⟩⟩

/-! ### Sync window and idempotence -/

lemma process_instrument_update_none (fetch : String → Nat → Nat → List DataRow)
    (inst : Instrument) (s e : Nat) (h : fetch inst.symbol s e = []) :
    process_instrument_update fetch inst s e = none := by
  rw [process_instrument_update]
  by_cases hb : inst.symbol ∈ BLACKLIST
  · rw [if_pos hb]
  · rw [if_neg hb]
    simp [h]

lemma foldl_syncStep_fixed (fetch : String → Nat → Nat → List DataRow) (s e : Nat)
    (insts : List Instrument) (acc : Nat × List QuoteRow)
    (h : ∀ inst ∈ insts, process_instrument_update fetch inst s e = none) :
    insts.foldl (syncStep fetch s e) acc = acc := by
  induction insts generalizing acc with
  | nil => rfl
  | cons i t ih =>
    rw [List.foldl_cons]
    have hi : syncStep fetch s e acc i = acc := by
      rw [syncStep, h i (List.mem_cons_self i t)]
    rw [hi]
    exact ih acc (fun inst hm => h inst (List.mem_cons_of_mem i hm))

/-- C3: running the sync again on the store the first run produced, when
the upstream source respects the requested window and returns no rows
dated after the latest stored session, inserts zero rows and leaves the
store unchanged. -/
theorem update_daily_data_idempotent (S0 : List QuoteRow) (insts : List Instrument)
    (fetch : String → Nat → Nat → List DataRow) (today : Nat)
    (hW : ∀ sym s e r, r ∈ fetch sym s e → s ≤ r.date ∧ r.date ≤ e)
    (hN : ∀ sym s e r, r ∈ fetch sym s e →
      ∃ d, get_latest_session_date (update_daily_data S0 insts fetch today).2 = some d ∧
        r.date ≤ d) :
    update_daily_data (update_daily_data S0 insts fetch today).2 insts fetch today
      = (0, (update_daily_data S0 insts fetch today).2) := by
  set S1 := (update_daily_data S0 insts fetch today).2 with hS1
  rw [update_daily_data]
  by_cases hle : today < computeStart S1 today
  · rw [if_pos hle]
  · rw [if_neg hle]
    apply foldl_syncStep_fixed
    intro inst _
    apply process_instrument_update_none
    rw [List.eq_nil_iff_forall_not_mem]
    intro r hr
    obtain ⟨d, hd, hrd⟩ := hN _ _ _ r hr
    have hw := (hW _ _ _ r hr).1
    have hcs : computeStart S1 today = d + 1 := by
      rw [computeStart, hd]
    rw [hcs] at hw
    omega

/-- Store, instrument list and empty upstream used as concrete sync
scenario. -/
def syncS0 : List QuoteRow := [⟨1, 5, 10, 2⟩]

/-- Witness for C3: one instrument, upstream returning nothing, run twice
from day 10. -/
theorem update_daily_data_idempotent_witness :
    update_daily_data
        (update_daily_data syncS0 [⟨1, "AAA"⟩] (fun _ _ _ => []) 10).2
        [⟨1, "AAA"⟩] (fun _ _ _ => []) 10
      = (0, (update_daily_data syncS0 [⟨1, "AAA"⟩] (fun _ _ _ => []) 10).2) :=
  update_daily_data_idempotent syncS0 [⟨1, "AAA"⟩] (fun _ _ _ => []) 10
    (by intro sym s e r hr; simp at hr)
    (by intro sym s e r hr; simp at hr)

/-- C4: the fetch window starts the day after the latest stored session,
or at today minus the 30-day bootstrap lookback on an empty store, and a
start past today ends the run with zero rows written and an untouched
store, for every possible upstream. -/
theorem update_daily_data_window (store : List QuoteRow) (insts : List Instrument)
    (fetch : String → Nat → Nat → List DataRow) (today : Nat) :
    (∀ d, get_latest_session_date store = some d → computeStart store today = d + 1) ∧
    (get_latest_session_date store = none →
      computeStart store today = today - BOOTSTRAP_DAYS) ∧
    (today < computeStart store today →
      update_daily_data store insts fetch today = (0, store)) := by
  refine ⟨?_, ?_, ?_⟩
  · intro d hd
    rw [computeStart, hd]
  · intro hd
    rw [computeStart, hd]
  · intro h
    rw [update_daily_data, if_pos h]

/-- Witness for C4: a store whose latest session is day 100, queried on
day 50, and the empty store on day 50. -/
theorem update_daily_data_window_witness :
    computeStart [(⟨1, 100, 10, 5⟩ : QuoteRow)] 50 = 101 ∧
    update_daily_data [(⟨1, 100, 10, 5⟩ : QuoteRow)] [⟨1, "AAA"⟩] (fun _ _ _ => []) 50
      = (0, [(⟨1, 100, 10, 5⟩ : QuoteRow)]) ∧
    computeStart ([] : List QuoteRow) 50 = 20 := by
  refine ⟨?_, ?_, ?_⟩
  · exact (update_daily_data_window [⟨1, 100, 10, 5⟩] [⟨1, "AAA"⟩] (fun _ _ _ => []) 50).1
      100 (by decide)
  · exact (update_daily_data_window [⟨1, 100, 10, 5⟩] [⟨1, "AAA"⟩] (fun _ _ _ => []) 50).2.2
      (by decide)
  · exact (update_daily_data_window [] [⟨1, "AAA"⟩] (fun _ _ _ => []) 50).2.1 rfl

/-! ### Indicator window boundaries -/

/-- C9: for every window length N with 0 < N, the rolling SMA used by
calculate_indicators is absent on a series of exactly N - 1 observations
and equals the arithmetic mean of the closes on exactly N observations. -/
theorem sma_window_boundary (n : Nat) (hn : 0 < n) (xs : List ℚ) :
    (xs.length = n - 1 → rollingMeanLast n xs = none) ∧
    (xs.length = n → rollingMeanLast n xs = some (xs.sum / (n : ℚ))) := by
  constructor
  · intro h
    rw [rollingMeanLast, if_pos (by omega)]
  · intro h
    rw [rollingMeanLast, if_neg (by omega)]
    rw [lastN, h, Nat.sub_self, List.drop_zero]

/-- Witness for C9 with N = 3: two observations give none, three give the
mean of the three closes. -/
theorem sma_window_boundary_witness :
    rollingMeanLast 3 [(1 : ℚ), 2, 3] = some (([(1 : ℚ), 2, 3]).sum / ((3 : Nat) : ℚ)) ∧
    rollingMeanLast 3 [(1 : ℚ), 2] = none :=
  ⟨(sma_window_boundary 3 (by norm_num) [(1 : ℚ), 2, 3]).2 rfl,
   (sma_window_boundary 3 (by norm_num) [(1 : ℚ), 2]).1 rfl⟩

/-! ### RSI saturation -/

lemma gainPart_nonneg (q : ℚ) : 0 ≤ gainPart q := by
  rw [gainPart]
  split <;> linarith

lemma sum_pos_of_mem (l : List ℚ) (x : ℚ) (hx : x ∈ l) (hxpos : 0 < x)
    (hall : ∀ y ∈ l, 0 ≤ y) : 0 < l.sum := by
  obtain ⟨s, t, rfl⟩ := List.append_of_mem hx
  rw [List.sum_append, List.sum_cons]
  have hs : 0 ≤ s.sum := List.sum_nonneg (fun y hy => hall y (by simp [hy]))
  have ht : 0 ≤ t.sum := List.sum_nonneg (fun y hy => hall y (by simp [hy]))
  linarith

lemma length_deltas (x : ℚ) (l : List ℚ) : (deltas (x :: l)).length = l.length := by
  rw [deltas]
  simp

lemma lastN_cons (x : ℚ) (l : List ℚ) (n : Nat) (h : n ≤ l.length) :
    lastN n (x :: l) = lastN n l := by
  rw [lastN, lastN, List.length_cons]
  rw [show l.length + 1 - n = (l.length - n) + 1 by omega]
  rfl

lemma lastN_map (f : ℚ → ℚ) (l : List ℚ) (n : Nat) :
    lastN n (l.map f) = (lastN n l).map f := by
  simp [lastN, List.map_drop]

/-- C8 (amended): whenever the last 14 day-over-day deltas contain no loss
and at least one strict gain, the RSI is defined and equals exactly 100;
a fully flat window (average gain also zero) instead yields NaN, refuting
the unconditional claim (see the counterexample below). -/
theorem rsi_no_loss_saturates (xs : List ℚ) (hlen : 15 ≤ xs.length)
    (hnl : ∀ d ∈ lastN 14 (deltas xs), 0 ≤ d)
    (hg : ∃ d ∈ lastN 14 (deltas xs), 0 < d) :
    rsiLast xs = some 100 := by
  cases xs with
  | nil => simp at hlen
  | cons x l =>
  have hlength : 14 ≤ l.length := by
    simp only [List.length_cons] at hlen
    omega
  have hlen2 : 14 ≤ (deltas (x :: l)).length := by
    rw [length_deltas]
    exact hlength
  have hgw : lastN 14 (gainsSeries (x :: l)) = (lastN 14 (deltas (x :: l))).map gainPart := by
    show lastN 14 (0 :: (deltas (x :: l)).map gainPart) = _
    rw [lastN_cons _ _ _ (by rw [List.length_map]; exact hlen2), lastN_map]
  have hlw : lastN 14 (lossSeries (x :: l)) = (lastN 14 (deltas (x :: l))).map lossPart := by
    show lastN 14 (0 :: (deltas (x :: l)).map lossPart) = _
    rw [lastN_cons _ _ _ (by rw [List.length_map]; exact hlen2), lastN_map]
  have hgain_sum : 0 < ((lastN 14 (deltas (x :: l))).map gainPart).sum := by
    obtain ⟨d, hd, hdpos⟩ := hg
    refine sum_pos_of_mem _ (gainPart d) (List.mem_map_of_mem _ hd) ?_ ?_
    · rw [gainPart, if_pos hdpos]
      exact hdpos
    · intro y hy
      obtain ⟨z, _, rfl⟩ := List.mem_map.1 hy
      exact gainPart_nonneg z
  have hloss_sum : ((lastN 14 (deltas (x :: l))).map lossPart).sum = 0 := by
    apply List.sum_eq_zero
    intro y hy
    obtain ⟨z, hz, rfl⟩ := List.mem_map.1 hy
    rw [lossPart, if_neg (not_lt.2 (hnl z hz))]
  have hglen : (gainsSeries (x :: l)).length = l.length + 1 := by
    show (0 :: (deltas (x :: l)).map gainPart).length = _
    simp [length_deltas]
  have hllen : (lossSeries (x :: l)).length = l.length + 1 := by
    show (0 :: (deltas (x :: l)).map lossPart).length = _
    simp [length_deltas]
  have hG : rollingMeanLast 14 (gainsSeries (x :: l))
      = some (((lastN 14 (deltas (x :: l))).map gainPart).sum / ((14 : Nat) : ℚ)) := by
    rw [rollingMeanLast, if_neg (by rw [hglen]; omega), hgw]
  have hL : rollingMeanLast 14 (lossSeries (x :: l)) = some 0 := by
    rw [rollingMeanLast, if_neg (by rw [hllen]; omega), hlw, hloss_sum]
    norm_num
  have hGpos : 0 < ((lastN 14 (deltas (x :: l))).map gainPart).sum / ((14 : Nat) : ℚ) :=
    div_pos hgain_sum (by norm_num)
  unfold rsiLast
  rw [hG, hL]
  dsimp only
  rw [if_pos rfl, if_neg (ne_of_gt hGpos)]

/-- A strictly monotonically increasing 20-session price series. -/
def incXs : List ℚ := [1, 2, 3, 4, 5, 6, 7, 8, 9, 10, 11, 12, 13, 14, 15, 16, 17, 18, 19, 20]

lemma incXs_window : lastN 14 (deltas incXs) = [1, 1, 1, 1, 1, 1, 1, 1, 1, 1, 1, 1, 1, 1] := by
  norm_num [incXs, deltas, lastN]

/-- Witness for C8: the strictly increasing 20-session series has no loss
and a strict gain in its last 14 deltas, and its RSI is exactly 100. -/
theorem rsi_no_loss_saturates_witness : rsiLast incXs = some 100 :=
  rsi_no_loss_saturates incXs (by norm_num [incXs])
    (by rw [incXs_window]; norm_num)
    (by rw [incXs_window]; exact ⟨1, by norm_num, by norm_num⟩)

/-- A 20-session series of constant closes. -/
def flatXs : List ℚ := [100, 100, 100, 100, 100, 100, 100, 100, 100, 100,
  100, 100, 100, 100, 100, 100, 100, 100, 100, 100]

/-- C8 counterexample: the flat 20-session series has no losses and a zero
average loss over the trailing 14 deltas, yet its RSI is NaN (absent),
not 100: pandas evaluates 0/0 to NaN, so the claim that RSI is defined and
equals 100 whenever the average loss is zero fails. -/
theorem rsi_flat_series_counterexample :
    rollingMeanLast 14 (lossSeries flatXs) = some 0 ∧
    rsiLast flatXs = none := by
  refine ⟨?_, ?_⟩
  · norm_num [flatXs, rollingMeanLast, lossSeries, deltas, lastN, lossPart]
  · norm_num [flatXs, rsiLast, rollingMeanLast, gainsSeries, lossSeries, deltas, lastN,
      gainPart, lossPart]

/-! ### First-match signal rules -/

/-- C7 (amended): the strategy rules are evaluated as a first-match
if / elif chain, so whenever the RSI-oversold condition holds the output
is the rebound signal alone, regardless of which other rule conditions
hold at the same time; contributions are never combined. -/
theorem signal_rules_first_match (close : ℚ) (rsi sma20 sma50 : Option ℚ)
    (h : rsiBelow rsi 35 = true) :
    signalFor close rsi sma20 sma50 = some (SignalKind.rebond, close * 1.05) := by
  rw [signalFor, if_pos h]

/-- Witness for the amended C7 theorem at concrete indicator values. -/
theorem signal_rules_first_match_witness :
    signalFor 100 (some 20) (some 102) (some (504 / 5))
      = some (SignalKind.rebond, 100 * 1.05) :=
  signal_rules_first_match 100 (some 20) (some 102) (some (504 / 5)) (by decide)

/-- A 50-session price series: thirty flat sessions, a small rise, then a
gentle drift down over the last 14 deltas. -/
def cl7 : List ℚ := [100, 100, 100, 100, 100, 100, 100, 100, 100, 100,
  100, 100, 100, 100, 100, 100, 100, 100, 100, 100,
  100, 100, 100, 100, 100, 100, 100, 100, 100, 100,
  101, 102, 103, 104, 104, 104, 104, 103, 103, 102,
  102, 102, 101, 101, 101, 101, 101, 101, 100, 100]

lemma cl7_indicators : calculate_indicators cl7 = some (some 0, some 102, some (504 / 5)) := by
  norm_num [cl7, calculate_indicators, rsiLast, rollingMeanLast, gainsSeries, lossSeries,
    deltas, lastN, gainPart, lossPart]

/-- C7 counterexample: on the series cl7 the RSI-oversold condition
(RSI 0 lt 35) and the full golden-cross condition (SMA20 102 above SMA50
100.8 within 2 percent) hold simultaneously, yet the strategy emits only
the first matching rule, the RSI rebound signal: the golden-cross rule
contributes nothing, refuting the sum-of-independent-contributions claim. -/
theorem additive_scoring_counterexample :
    calculate_indicators cl7 = some (some 0, some 102, some (504 / 5)) ∧
    rsiBelow (some 0) 35 = true ∧
    (floatTruthy (some 102) && floatTruthy (some (504 / 5)) && optGt (some 102) (some (504 / 5))
      && ratioBelow (some 102) (some (504 / 5)) 1.02) = true ∧
    signalFor 100 (some 0) (some 102) (some (504 / 5))
      = some (SignalKind.rebond, 100 * 1.05) ∧
    SignalKind.rebond ≠ SignalKind.tendance := by
  refine ⟨cl7_indicators, by decide, ?_, ?_, by decide⟩
  · norm_num [floatTruthy, optGt, ratioBelow]
  · rw [signalFor, if_pos (by decide)]

/-! ### The liquidity gate and output order of analyze_opportunities -/

lemma analyzeRow_fields (db : Db) (t : String × ℚ × ℚ) (e : Entry)
    (h : analyzeRow db t = some e) :
    e.symbol = t.1 ∧ e.volume = t.2.2 ∧ ¬ t.2.2 < MIN_VOLUME_MAD := by
  rw [analyzeRow] at h
  by_cases hv : t.2.2 < MIN_VOLUME_MAD
  · rw [if_pos hv] at h
    cases h
  · rw [if_neg hv] at h
    simp only at h
    split at h
    · cases h
    · split at h
      · cases h
      · split at h
        · cases h
        · cases h
          exact ⟨rfl, rfl, hv⟩

/-- C5 (amended): the liquidity gate of analyze_opportunities filters on
the volume of the latest session alone, against MIN_VOLUME_MAD: every
emitted entry carries a latest-session volume of at least the threshold.
No 20-session average turnover is consulted (see the counterexample). -/
theorem opportunities_volume_gate (db : Db) (e : Entry)
    (h : e ∈ analyze_opportunities db) : MIN_VOLUME_MAD ≤ e.volume := by
  rw [analyze_opportunities] at h
  rcases hsd : get_latest_session_date db.quotes with _ | sd
  · rw [hsd] at h
    simp at h
  · rw [hsd] at h
    simp only at h
    obtain ⟨t, _, hf⟩ := List.mem_filterMap.1 h
    have hfields := analyzeRow_fields db t e hf
    rw [hfields.2.1]
    exact not_lt.1 hfields.2.2

lemma map_filterMap_sublist {α β γ : Type} (l : List α) (f : α → Option β) (g : β → γ)
    (h : α → γ) (H : ∀ a b, f a = some b → g b = h a) :
    ((l.filterMap f).map g).Sublist (l.map h) := by
  induction l with
  | nil => simp
  | cons a t ih =>
    rw [List.filterMap_cons, List.map_cons]
    cases hfa : f a with
    | none => exact ih.cons _
    | some b =>
      rw [List.map_cons, H a b hfa]
      exact ih.cons₂ _

/-- C6 (amended): the opportunity list carries no ranking step: its
symbols form an order-preserving sublist of the latest-session rows in
store scan order, so output order is row order, not score-descending with
symbol tie-breaks (see the counterexample for two equal candidates). -/
theorem opportunities_order_preserved (db : Db) (sd : Nat)
    (h : get_latest_session_date db.quotes = some sd) :
    ((analyze_opportunities db).map (fun e => e.symbol)).Sublist
      ((todaysData db sd).map (fun t => t.1)) := by
  rw [analyze_opportunities, h]
  exact map_filterMap_sublist _ _ _ _ (fun a b hab => (analyzeRow_fields db a b hab).1)

/-- Average 20-session turnover, as the specification words define the
liquidity screen: the trailing 20-session mean of volume times the last
close (spec sections 4.5 and 4.6).  The source consults no such quantity;
this definition exists only to compare the specified gate with the coded
one. -/
def specAvgTurnover20 (df : List QuoteRow) : ℚ :=
  ((lastN 20 (df.map (fun r => r.volume))).sum / 20)
    * ((df.getLast?).map (fun r => r.close)).getD 0

/-- Store with one instrument AAA: twenty declining sessions, nineteen of
them with zero volume and the latest with volume 100000. -/
def db5 : Db :=
  ⟨[⟨1, "AAA"⟩],
   [⟨1, 1, 20, 0⟩, ⟨1, 2, 19, 0⟩, ⟨1, 3, 18, 0⟩, ⟨1, 4, 17, 0⟩, ⟨1, 5, 16, 0⟩,
    ⟨1, 6, 15, 0⟩, ⟨1, 7, 14, 0⟩, ⟨1, 8, 13, 0⟩, ⟨1, 9, 12, 0⟩, ⟨1, 10, 11, 0⟩,
    ⟨1, 11, 10, 0⟩, ⟨1, 12, 9, 0⟩, ⟨1, 13, 8, 0⟩, ⟨1, 14, 7, 0⟩, ⟨1, 15, 6, 0⟩,
    ⟨1, 16, 5, 0⟩, ⟨1, 17, 4, 0⟩, ⟨1, 18, 3, 0⟩, ⟨1, 19, 2, 0⟩, ⟨1, 20, 1, 100000⟩]⟩

lemma latest_db5 : get_latest_session_date db5.quotes = some 20 := by decide

lemma todays_db5 : todaysData db5 20 = [("AAA", 1, 100000)] := by decide

lemma history_db5 : get_history db5 "AAA" 60 = db5.quotes := by decide

lemma analyzeRow_db5 :
    analyzeRow db5 ("AAA", 1, 100000)
      = some ⟨"AAA", SignalKind.rebond, 1, 100000, 21 / 20, true⟩ := by
  simp only [analyzeRow, history_db5]
  norm_num [db5, calculate_indicators, rsiLast, rollingMeanLast, gainsSeries, lossSeries,
    deltas, lastN, gainPart, lossPart, signalFor, rsiBelow, rsiAbove, floatTruthy, optGt,
    ratioBelow, MIN_VOLUME_MAD]

lemma analyze_db5 :
    analyze_opportunities db5 = [⟨"AAA", SignalKind.rebond, 1, 100000, 21 / 20, true⟩] := by
  rw [analyze_opportunities, latest_db5]
  show (todaysData db5 20).filterMap (analyzeRow db5) = _
  rw [todays_db5]
  rw [List.filterMap_cons]
  rw [analyzeRow_db5]
  rfl

/-- C5 counterexample: the instrument AAA of db5 has an average 20-session
turnover of 5000, far below the configured minimum of 10000, yet its high
latest-session volume passes the coded gate and AAA appears in the
opportunity list: the gate reads the latest-session volume, not the
20-session average turnover of the claim. -/
theorem liquidity_gate_not_average_counterexample :
    specAvgTurnover20 (get_history db5 "AAA" 60) < MIN_VOLUME_MAD ∧
    (analyze_opportunities db5).map (fun e => e.symbol) = ["AAA"] := by
  constructor
  · rw [history_db5]
    norm_num [db5, specAvgTurnover20, lastN, MIN_VOLUME_MAD]
  · rw [analyze_db5]
    rfl

/-- Witness for the amended C5 theorem at the concrete store db5. -/
theorem opportunities_volume_gate_witness :
    MIN_VOLUME_MAD ≤ (⟨"AAA", SignalKind.rebond, 1, 100000, 21 / 20, true⟩ : Entry).volume :=
  opportunities_volume_gate db5 ⟨"AAA", SignalKind.rebond, 1, 100000, 21 / 20, true⟩
    (by rw [analyze_db5]; exact List.mem_singleton.2 rfl)

/-- Twenty declining sessions of symbol ZZZ, inserted first. -/
def zzzRows : List QuoteRow :=
  [⟨1, 1, 20, 100000⟩, ⟨1, 2, 19, 100000⟩, ⟨1, 3, 18, 100000⟩, ⟨1, 4, 17, 100000⟩,
   ⟨1, 5, 16, 100000⟩, ⟨1, 6, 15, 100000⟩, ⟨1, 7, 14, 100000⟩, ⟨1, 8, 13, 100000⟩,
   ⟨1, 9, 12, 100000⟩, ⟨1, 10, 11, 100000⟩, ⟨1, 11, 10, 100000⟩, ⟨1, 12, 9, 100000⟩,
   ⟨1, 13, 8, 100000⟩, ⟨1, 14, 7, 100000⟩, ⟨1, 15, 6, 100000⟩, ⟨1, 16, 5, 100000⟩,
   ⟨1, 17, 4, 100000⟩, ⟨1, 18, 3, 100000⟩, ⟨1, 19, 2, 100000⟩, ⟨1, 20, 1, 100000⟩]

/-- The same twenty sessions for symbol AAA, inserted after ZZZ. -/
def aaaRows : List QuoteRow :=
  [⟨2, 1, 20, 100000⟩, ⟨2, 2, 19, 100000⟩, ⟨2, 3, 18, 100000⟩, ⟨2, 4, 17, 100000⟩,
   ⟨2, 5, 16, 100000⟩, ⟨2, 6, 15, 100000⟩, ⟨2, 7, 14, 100000⟩, ⟨2, 8, 13, 100000⟩,
   ⟨2, 9, 12, 100000⟩, ⟨2, 10, 11, 100000⟩, ⟨2, 11, 10, 100000⟩, ⟨2, 12, 9, 100000⟩,
   ⟨2, 13, 8, 100000⟩, ⟨2, 14, 7, 100000⟩, ⟨2, 15, 6, 100000⟩, ⟨2, 16, 5, 100000⟩,
   ⟨2, 17, 4, 100000⟩, ⟨2, 18, 3, 100000⟩, ⟨2, 19, 2, 100000⟩, ⟨2, 20, 1, 100000⟩]

/-- Store with two identically traded instruments, ZZZ stored before AAA. -/
def db6 : Db := ⟨[⟨1, "ZZZ"⟩, ⟨2, "AAA"⟩], zzzRows ++ aaaRows⟩

lemma latest_db6 : get_latest_session_date db6.quotes = some 20 := by decide

lemma todays_db6 : todaysData db6 20 = [("ZZZ", 1, 100000), ("AAA", 1, 100000)] := by decide

lemma history_db6z : get_history db6 "ZZZ" 60 = zzzRows := by decide

lemma history_db6a : get_history db6 "AAA" 60 = aaaRows := by decide

lemma analyzeRow_db6z :
    analyzeRow db6 ("ZZZ", 1, 100000)
      = some ⟨"ZZZ", SignalKind.rebond, 1, 100000, 21 / 20, false⟩ := by
  simp only [analyzeRow, history_db6z]
  norm_num [zzzRows, calculate_indicators, rsiLast, rollingMeanLast, gainsSeries,
    lossSeries, deltas, lastN, gainPart, lossPart, signalFor, rsiBelow, rsiAbove,
    floatTruthy, optGt, ratioBelow, MIN_VOLUME_MAD]

lemma analyzeRow_db6a :
    analyzeRow db6 ("AAA", 1, 100000)
      = some ⟨"AAA", SignalKind.rebond, 1, 100000, 21 / 20, false⟩ := by
  simp only [analyzeRow, history_db6a]
  norm_num [aaaRows, calculate_indicators, rsiLast, rollingMeanLast, gainsSeries,
    lossSeries, deltas, lastN, gainPart, lossPart, signalFor, rsiBelow, rsiAbove,
    floatTruthy, optGt, ratioBelow, MIN_VOLUME_MAD]

lemma analyze_db6 :
    analyze_opportunities db6
      = [⟨"ZZZ", SignalKind.rebond, 1, 100000, 21 / 20, false⟩,
         ⟨"AAA", SignalKind.rebond, 1, 100000, 21 / 20, false⟩] := by
  rw [analyze_opportunities, latest_db6]
  show (todaysData db6 20).filterMap (analyzeRow db6) = _
  rw [todays_db6, List.filterMap_cons, analyzeRow_db6z, List.filterMap_cons, analyzeRow_db6a]
  rfl

/-- C6 counterexample: ZZZ and AAA are indistinguishable candidates (same
signal, close, volume and target), yet the output lists ZZZ first because
its rows sit earlier in the store: no tie-break orders AAA before ZZZ, and
no score sorting exists, refuting the claimed ranking. -/
theorem ranking_order_counterexample :
    (analyze_opportunities db6).map (fun e => e.signal)
      = [SignalKind.rebond, SignalKind.rebond] ∧
    (analyze_opportunities db6).map (fun e => e.symbol) = ["ZZZ", "AAA"] := by
  rw [analyze_db6]
  exact ⟨rfl, rfl⟩

/-- Witness for the amended C6 theorem at the concrete store db6. -/
theorem opportunities_order_preserved_witness :
    ((analyze_opportunities db6).map (fun e => e.symbol)).Sublist
      ((todaysData db6 20).map (fun t => t.1)) :=
  opportunities_order_preserved db6 20 (by decide)

/-! ### ISO date text and the textual MAX cursor -/

lemma digitChar_lt_iff : ∀ (a b : Fin 10),
    (Nat.digitChar a.val < Nat.digitChar b.val) ↔ a.val < b.val := by decide

lemma lexLT_cons (a b : Char) (as bs : List Char) :
    lexLT (a :: as) (b :: bs) = if a < b then true else if b < a then false else lexLT as bs :=
  rfl

/-- Fixed-width zero-padded decimal renderings compare lexicographically
exactly as the numbers they render, with ties decided by the tails. -/
lemma lexLT_pad (w : Nat) : ∀ (n1 n2 : Nat) (t1 t2 : List Char), n1 < 10 ^ w → n2 < 10 ^ w →
    lexLT (padDigits w n1 ++ t1) (padDigits w n2 ++ t2)
      = if n1 < n2 then true else if n2 < n1 then false else lexLT t1 t2 := by
  induction w with
  | zero =>
    intro n1 n2 t1 t2 h1 h2
    rw [pow_zero] at h1 h2
    have e1 : n1 = 0 := by omega
    have e2 : n2 = 0 := by omega
    subst e1
    subst e2
    simp [padDigits]
  | succ w ih =>
    intro n1 n2 t1 t2 h1 h2
    rw [padDigits, padDigits, List.cons_append, List.cons_append, lexLT_cons]
    have hq1 : n1 / 10 ^ w < 10 := Nat.div_lt_of_lt_mul (by rw [← pow_succ]; exact h1)
    have hq2 : n2 / 10 ^ w < 10 := Nat.div_lt_of_lt_mul (by rw [← pow_succ]; exact h2)
    have hr1 : n1 % 10 ^ w < 10 ^ w := Nat.mod_lt _ (by positivity)
    have hr2 : n2 % 10 ^ w < 10 ^ w := Nat.mod_lt _ (by positivity)
    have hiff := digitChar_lt_iff ⟨_, hq1⟩ ⟨_, hq2⟩
    have hiff2 := digitChar_lt_iff ⟨_, hq2⟩ ⟨_, hq1⟩
    simp only [Fin.val_mk] at hiff hiff2
    have e1 := Nat.div_add_mod n1 (10 ^ w)
    have e2 := Nat.div_add_mod n2 (10 ^ w)
    rcases Nat.lt_trichotomy (n1 / 10 ^ w) (n2 / 10 ^ w) with hlt | heq | hgt
    · rw [if_pos (hiff.mpr hlt)]
      have hn : n1 < n2 := by
        have key : 10 ^ w * (n1 / 10 ^ w) + 10 ^ w ≤ 10 ^ w * (n2 / 10 ^ w) := by
          rw [← Nat.mul_succ]
          exact Nat.mul_le_mul_left _ hlt
        omega
      rw [if_pos hn]
    · rw [if_neg (fun hc => absurd (hiff.mp hc) (by omega)),
        if_neg (fun hc => absurd (hiff2.mp hc) (by omega))]
      rw [ih _ _ t1 t2 hr1 hr2]
      rw [heq] at e1
      have hI1 : (n1 % 10 ^ w < n2 % 10 ^ w) ↔ (n1 < n2) := by
        generalize 10 ^ w * (n2 / 10 ^ w) = K at e1 e2
        omega
      have hI2 : (n2 % 10 ^ w < n1 % 10 ^ w) ↔ (n2 < n1) := by
        generalize 10 ^ w * (n2 / 10 ^ w) = K at e1 e2
        omega
      simp only [hI1, hI2]
    · rw [if_neg (fun hc => absurd (hiff.mp hc) (by omega)), if_pos (hiff2.mpr hgt)]
      have hn : n2 < n1 := by
        have key : 10 ^ w * (n2 / 10 ^ w) + 10 ^ w ≤ 10 ^ w * (n1 / 10 ^ w) := by
          rw [← Nat.mul_succ]
          exact Nat.mul_le_mul_left _ hgt
        omega
      rw [if_neg (by omega), if_pos hn]

/-- The byte-wise order of two ISO date texts of valid dates agrees with
the chronological order of the dates. -/
lemma lexLT_isoChars (a b : CalDate) (ha : a.Valid) (hb : b.Valid) :
    lexLT (isoChars a) (isoChars b) = decide (dateLT a b) := by
  obtain ⟨hay, ham1, ham2, had1, had2⟩ := ha
  obtain ⟨hby, hbm1, hbm2, hbd1, hbd2⟩ := hb
  rw [isoChars, isoChars]
  rw [lexLT_pad 4 _ _ _ _ (by simpa using hay) (by simpa using hby)]
  have htail : lexLT ('-' :: (padDigits 2 a.month ++ '-' :: padDigits 2 a.day))
      ('-' :: (padDigits 2 b.month ++ '-' :: padDigits 2 b.day))
      = (if a.month < b.month then true else if b.month < a.month then false
          else if a.day < b.day then true else if b.day < a.day then false else false) := by
    rw [lexLT_cons, if_neg (lt_irrefl _), if_neg (lt_irrefl _)]
    rw [lexLT_pad 2 _ _ _ _ (by simp only [Nat.reducePow]; omega)
      (by simp only [Nat.reducePow]; omega)]
    have hday : lexLT ('-' :: padDigits 2 a.day) ('-' :: padDigits 2 b.day)
        = (if a.day < b.day then true else if b.day < a.day then false else false) := by
      rw [lexLT_cons, if_neg (lt_irrefl _), if_neg (lt_irrefl _)]
      rw [← List.append_nil (padDigits 2 a.day), ← List.append_nil (padDigits 2 b.day)]
      rw [lexLT_pad 2 _ _ _ _ (by simp only [Nat.reducePow]; omega)
        (by simp only [Nat.reducePow]; omega)]
      rfl
    rw [hday]
  rw [htail]
  rcases Nat.lt_trichotomy a.year b.year with h | h | h
  · rw [if_pos h]
    exact (decide_eq_true (Or.inl h)).symm
  · rw [if_neg (by omega), if_neg (by omega)]
    rcases Nat.lt_trichotomy a.month b.month with h2 | h2 | h2
    · rw [if_pos h2]
      exact (decide_eq_true (Or.inr ⟨h, Or.inl h2⟩)).symm
    · rw [if_neg (by omega), if_neg (by omega)]
      rcases Nat.lt_trichotomy a.day b.day with h3 | h3 | h3
      · rw [if_pos h3]
        exact (decide_eq_true (Or.inr ⟨h, Or.inr ⟨h2, h3⟩⟩)).symm
      · rw [if_neg (by omega), if_neg (by omega)]
        exact (decide_eq_false (by simp only [dateLT]; omega)).symm
      · rw [if_neg (by omega), if_pos h3]
        exact (decide_eq_false (by simp only [dateLT]; omega)).symm
    · rw [if_neg (by omega), if_pos h2]
      exact (decide_eq_false (by simp only [dateLT]; omega)).symm
  · rw [if_neg (by omega), if_pos h]
    exact (decide_eq_false (by simp only [dateLT]; omega)).symm

lemma latest_text_go (ds : List CalDate) : ∀ (c : CalDate), c.Valid → (∀ d ∈ ds, d.Valid) →
    List.foldl (fun acc s =>
      match acc with
      | none => some s
      | some t => some (if lexLT t s then s else t)) (some (isoChars c)) (ds.map isoChars)
      = (List.foldl (fun acc d =>
          match acc with
          | none => some d
          | some cc => some (if dateLT cc d then d else cc)) (some c) ds).map isoChars := by
  induction ds with
  | nil =>
    intro c _ _
    rfl
  | cons d t ih =>
    intro c hc hds
    rw [List.map_cons, List.foldl_cons, List.foldl_cons]
    have hstep : (if lexLT (isoChars c) (isoChars d) then isoChars d else isoChars c)
        = isoChars (if dateLT c d then d else c) := by
      rw [lexLT_isoChars c d hc (hds d (List.mem_cons_self d t))]
      by_cases hcd : dateLT c d
      · simp [hcd]
      · simp [hcd]
    dsimp only
    rw [hstep]
    have hvalid : (if dateLT c d then d else c).Valid := by
      by_cases hcd : dateLT c d
      · rw [if_pos hcd]
        exact hds d (List.mem_cons_self d t)
      · rw [if_neg hcd]
        exact hc
    exact ih _ hvalid (fun x hx => hds x (List.mem_cons_of_mem d hx))

/-- C10: when every stored Date text is the strftime normalization of a
valid calendar date, as process_instrument_update guarantees for every
row the sync pipeline writes, the textual MAX of SQLite over the Date
column is exactly the ISO text of the chronologically latest stored
session date. -/
theorem latest_session_date_text_correct (ds : List CalDate) (h : ∀ d ∈ ds, d.Valid) :
    latest_session_date_text (ds.map isoChars) = (chronoMax ds).map isoChars := by
  rw [latest_session_date_text, chronoMax]
  cases ds with
  | nil => rfl
  | cons d t =>
    rw [List.map_cons, List.foldl_cons, List.foldl_cons]
    dsimp only
    exact latest_text_go t d (h d (List.mem_cons_self d t))
      (fun x hx => h x (List.mem_cons_of_mem d hx))

/-- Witness for C10 on a concrete pair of sessions crossing a year
boundary. -/
theorem latest_session_date_text_correct_witness :
    latest_session_date_text ([⟨2024, 3, 7⟩, ⟨2023, 12, 31⟩].map isoChars)
      = (chronoMax [⟨2024, 3, 7⟩, ⟨2023, 12, 31⟩]).map isoChars ∧
    chronoMax [(⟨2024, 3, 7⟩ : CalDate), ⟨2023, 12, 31⟩] = some ⟨2024, 3, 7⟩ :=
  ⟨latest_session_date_text_correct _ (by decide), by decide⟩
